import Mathlib

/-!
Shallow embedding of `bot.py` (dopedogessalesbot): a Discord bot that polls
a marketplace feed for completed sales of a collection, forwards each new
sale once, and keeps a per-collection watermark (`last_sale_timestamp`) in
a database table.

Timestamps are modelled as integers (seconds since the Unix epoch; negative
values lie before 1970).  Python `datetime` values are totally ordered and
support subtraction, which integer arithmetic reproduces exactly.
-/

namespace DopeDoges

abbrev Timestamp := Int

/-- `datetime.min.replace(tzinfo=timezone.utc)` (0001-01-01T00:00:00+00:00),
the sentinel returned by `load_last_sale_timestamp` when no row exists or the
database read fails (bot.py lines 56, 59), as seconds since the Unix epoch. -/
def datetimeMin : Timestamp := -62135596800

/-- The timestamp of the default date string `"1970-01-01T00:00:00.000Z"`
used when a record has no `date` field (bot.py lines 102, 141, 153). -/
def epoch : Timestamp := 0

/-- `timedelta(hours=24)` (bot.py line 156), in seconds. -/
def stalenessWindow : Int := 24 * 60 * 60

/-- The `date` field of a raw feed record as seen through
`datetime.fromisoformat(s.replace("Z", "+00:00"))`: the field can be absent
(`sale.get("date", ...)` falls back to the epoch string), present but not
ISO-8601 (in which case `fromisoformat` raises `ValueError`), or present and
parsing to a timestamp.  The embedding abstracts the string and the parser
into these three outcomes. -/
inductive DateField where
  | missing
  | unparseable
  | valid (t : Timestamp)
deriving DecidableEq, Repr

/-- One entry of the feed response `data` array, with the fields `bot.py`
reads.  Fields absent from the JSON object are `none`. -/
structure RawRecord where
  status : Option String := none
  price : Int := 0
  itemId : Option String := none
  inscriptionId : Option String := none
  inscriptionNumber : Option Int := none
  buyerAddress : Option String := none
  sellerAddress : Option String := none
  date : DateField := .missing
deriving DecidableEq, Repr

/-- `datetime.fromisoformat(sale.get("date", "1970-01-01T00:00:00.000Z").replace("Z", "+00:00"))`
(bot.py lines 102-103, 141, 153-154): a missing field falls back to the epoch
string; an unparseable string raises `ValueError` (modelled as `.error`). -/
def parseSaleTimestamp (r : RawRecord) : Except Unit Timestamp :=
  match r.date with
  | .missing => .ok epoch
  | .unparseable => .error ()
  | .valid t => .ok t

/-- The timestamp of a record whose date parses (missing ↦ epoch).  For an
unparseable date this returns a junk value (`epoch`); every use is guarded by
`allParseable` or by `parseSaleTimestamp` succeeding. -/
def saleTs (r : RawRecord) : Timestamp :=
  match r.date with
  | .missing => epoch
  | .unparseable => epoch
  | .valid t => t

/-- Whether every record's date field parses, i.e. whether the sort key
of `sorted(sales, key=...)` (bot.py line 141) can be computed for the whole
batch without `fromisoformat` raising. -/
def allParseable (sales : List RawRecord) : Bool :=
  sales.all fun r => !(r.date == .unparseable)

/-- Ascending order on parsed sale timestamps, the sort key of line 141. -/
def tsAscRel (a b : RawRecord) : Prop := saleTs a ≤ saleTs b

/-- Descending order on parsed sale timestamps, the sort key of line 201
(`reverse=True`). -/
def tsDescRel (a b : RawRecord) : Prop := saleTs b ≤ saleTs a

instance : DecidableRel tsAscRel := fun a b => Int.decLe (saleTs a) (saleTs b)

instance : DecidableRel tsDescRel := fun a b => Int.decLe (saleTs b) (saleTs a)

instance : IsTotal RawRecord tsAscRel := ⟨fun a b => le_total (saleTs a) (saleTs b)⟩

instance : IsTrans RawRecord tsAscRel := ⟨fun _ _ _ h1 h2 => le_trans h1 h2⟩

instance : IsTotal RawRecord tsDescRel := ⟨fun a b => le_total (saleTs b) (saleTs a)⟩

instance : IsTrans RawRecord tsDescRel := ⟨fun _ _ _ h1 h2 => le_trans h2 h1⟩

/-- `sorted(sales, key=lambda x: fromisoformat(x.get("date", ...)))`
(bot.py line 141).  Python raises if any key is unparseable; otherwise it is
a stable ascending sort on the key, which a stable insertion sort on the same
key reproduces exactly. -/
def sortSalesAsc (sales : List RawRecord) : Except Unit (List RawRecord) :=
  if allParseable sales then .ok (List.insertionSort tsAscRel sales) else .error ()

/-- `sorted(sales, key=..., reverse=True)` (bot.py line 201): stable
descending sort on the parsed date, raising if any key is unparseable. -/
def sortSalesDesc (sales : List RawRecord) : Except Unit (List RawRecord) :=
  if allParseable sales then .ok (List.insertionSort tsDescRel sales) else .error ()

/-- The guard of bot.py line 150:
`if sale.get("status") != "bought" or not sale.get("buyerAddress"): continue`.
A record is a sale iff its status is `"bought"` and its buyer address is
present and non-empty (`None` and `""` are both falsy in Python). -/
def isSaleRecord (r : RawRecord) : Bool :=
  r.status == some "bought" && !(r.buyerAddress.getD "" == "")

/-- Outcome of the HTTP GET in `fetch_sales` (bot.py lines 77-91). -/
inductive FetchOutcome where
  | ok (data : List RawRecord)
  | httpError
  | transportError

/-- `fetch_sales` (bot.py lines 77-91): returns the `data` array on
HTTP 200; a non-200 status or a raised exception yields `[]`. -/
def fetch_sales : FetchOutcome → List RawRecord
  | .ok data => data
  | .httpError => []
  | .transportError => []

/-- Environment of one `check_sales` pass for one collection: the parts of
the world the pass observes. -/
structure CycleInput where
  /-- `bot.get_channel(...)` returned a channel (bot.py lines 132-135). -/
  channelOk : Bool
  /-- The list returned by `fetch_sales` (bot.py line 140). -/
  fetched : List RawRecord
  /-- `datetime.now(timezone.utc)` (bot.py line 144). -/
  now : Timestamp
  /-- Whether `channel.send` inside `post_sale_to_discord` succeeds for a
  given record; `false` means it raises. -/
  notifyOk : RawRecord → Bool
  /-- Whether the database write inside `save_last_sale_timestamp`
  succeeds; that function catches its own exceptions (bot.py lines 61-75),
  so a failure only leaves the stored value unchanged. -/
  saveOk : Bool

/-- Observable outcome of one `check_sales` pass for one collection. -/
structure CycleResult where
  /-- Records successfully posted to Discord, in posting order. -/
  delivered : List RawRecord
  /-- An uncaught exception (unparseable date or failed `channel.send`)
  ended the pass early. -/
  aborted : Bool
  /-- The value passed to `save_last_sale_timestamp`, if it was called. -/
  saved : Option Timestamp
  /-- The persisted watermark after the pass. -/
  watermarkAfter : Timestamp
deriving DecidableEq, Repr

/-- The body of the `for sale in sales` loop of `check_sales`
(bot.py lines 149-166), traversing the sorted batch.  Arguments: the
`notifyOk` environment, `current_time`, `last_sale_timestamp`, the remaining
records, and the running `new_last_sale_timestamp`.  Returns the records
posted, the final `new_last_sale_timestamp`, and whether an exception
escaped the loop (there is no try/except around `post_sale_to_discord`, so
a raise ends the whole pass). -/
def deliverLoop (notify : RawRecord → Bool) (now last : Timestamp) :
    List RawRecord → Timestamp → List RawRecord × Timestamp × Bool
  | [], nl => ([], nl, false)
  | r :: rest, nl =>
    if isSaleRecord r then
      match parseSaleTimestamp r with
      | .error _ => ([], nl, true)
      | .ok t =>
        if stalenessWindow < now - t then deliverLoop notify now last rest nl
        else if t ≤ last then deliverLoop notify now last rest nl
        else if notify r then
          let res := deliverLoop notify now last rest (if nl < t then t else nl)
          (r :: res.1, res.2)
        else ([], nl, true)
    else deliverLoop notify now last rest nl

/-- One pass of `check_sales` for one collection (bot.py lines 131-177),
given the loaded watermark `last` (line 137).  Lines 132-135: a missing
channel skips the collection.  Line 141: sorting raises on an unparseable
date, aborting the pass with nothing posted and nothing saved.  Lines
149-166: the delivery loop; a failed `channel.send` raises, aborting the
pass after the records already posted.  Lines 173-174: `save` is called only
when `new_last_sale_timestamp != last_sale_timestamp`. -/
def check_sales_one (last : Timestamp) (inp : CycleInput) : CycleResult :=
  if inp.channelOk then
    match sortSalesAsc inp.fetched with
    | .error _ => ⟨[], true, none, last⟩
    | .ok sales =>
      if (deliverLoop inp.notifyOk inp.now last sales last).2.2 then
        ⟨(deliverLoop inp.notifyOk inp.now last sales last).1, true, none, last⟩
      else if (deliverLoop inp.notifyOk inp.now last sales last).2.1 ≠ last then
        ⟨(deliverLoop inp.notifyOk inp.now last sales last).1, false,
         some (deliverLoop inp.notifyOk inp.now last sales last).2.1,
         if inp.saveOk then (deliverLoop inp.notifyOk inp.now last sales last).2.1
         else last⟩
      else ⟨(deliverLoop inp.notifyOk inp.now last sales last).1, false, none, last⟩
  else ⟨[], false, none, last⟩

/-- A sequence of `check_sales` passes in which each pass loads the
watermark the previous pass left persisted; returns the watermark after
each pass. -/
def runCycles (w : Timestamp) : List CycleInput → List Timestamp
  | [] => []
  | inp :: rest =>
    (check_sales_one w inp).watermarkAfter ::
      runCycles (check_sales_one w inp).watermarkAfter rest

/-- `raw_price / 100000000` (bot.py line 100).  Python divides floats; the
embedding uses exact rationals, which agree with the float wherever the
float computation is exact (in particular at the values the claims test). -/
def price_doge (raw : Int) : ℚ := (raw : ℚ) / 100000000

/-- The rendering `f"\x7bprice_doge:.2f\x7d"` (bot.py line 118): the number
with exactly two digits after the decimal point.  Modelled for non-negative
values exactly representable with two decimals (the only values the claims
evaluate), where Python float formatting introduces no rounding: `c` is the
number of hundredths, computed from the reduced fraction. -/
def format2f (q : ℚ) : String :=
  let c : Int := q.num * 100 / (q.den : Int)
  let cents := (c % 100).toNat
  toString (c / 100) ++ "." ++
    (if cents < 10 then "0" ++ toString cents else toString cents)

/-- Python `s[:4] + "..." + s[-4:]` (bot.py lines 105-106). -/
def shortAddr (s : String) : String :=
  s.take 4 ++ "..." ++ s.drop (s.length - 4)

/-- The visible content of the embed built by `post_sale_to_discord`
(bot.py lines 99-123), for a record whose date parses. -/
structure SaleEvent where
  /-- `f"\x7bcollection.capitalize()\x7d #\x7bsale.get('itemId', '???')\x7d"` keeps
  only the item id here; capitalisation is presentation. -/
  itemId : String
  /-- The `"💰 Sold for"` field, `f"\x7bprice_doge:.2f\x7d Doge"`. -/
  soldFor : String
  inscriptionNumber : Option Int
  buyer : String
  seller : String
  /-- The parsed sale timestamp shown in the footer and returned by
  `post_sale_to_discord`. -/
  timestamp : Timestamp
deriving DecidableEq, Repr

/-- The embed `post_sale_to_discord` builds for record `r` (assuming the
date parses to `saleTs r`, which every caller guarantees). -/
def saleEvent (r : RawRecord) : SaleEvent :=
  { itemId := r.itemId.getD "???"
    soldFor := format2f (price_doge r.price) ++ " Doge"
    inscriptionNumber := r.inscriptionNumber
    buyer := shortAddr (r.buyerAddress.getD "NewP")
    seller := shortAddr (r.sellerAddress.getD "Myst")
    timestamp := saleTs r }

/-- The keys of the `COLLECTIONS` dict (bot.py lines 32-45); only
`"dopedoges"` is active, the rest is commented out. -/
def COLLECTIONS : List String := ["dopedoges"]

/-- External calls an administrative command can make, in order. -/
inductive Effect where
  /-- `load_last_sale_timestamp`: a SELECT on `sale_timestamps`. -/
  | dbLoad (collection : String)
  /-- `save_last_sale_timestamp`: an upsert on `sale_timestamps`. -/
  | dbSave (collection : String) (t : Timestamp)
  /-- `fetch_sales`: the HTTP GET against the feed. -/
  | apiFetch (collection : String)
  /-- `post_sale_to_discord`: the embed sent to the sales channel. -/
  | discordPost (collection : String) (r : RawRecord)
  /-- `ctx.send`: a textual reply to the command issuer. -/
  | reply (msg : String)
deriving DecidableEq, Repr

/-- Whether an effect reads or writes the watermark store. -/
def touchesWatermark : Effect → Bool
  | .dbLoad _ => true
  | .dbSave _ _ => true
  | _ => false

/-- Outcome of an administrative command: the external calls it made and
the record it posted, if any. -/
structure CommandResult where
  effects : List Effect
  posted : Option RawRecord
deriving DecidableEq, Repr

/-- The `!post_last_sale` command (bot.py lines 185-204): validate the
collection, resolve the channel, fetch, and post the first record of the
batch sorted descending by date.  Sorting or `channel.send` raising ends
the command with no further effects (the command error handler is outside
this file's scope). -/
def post_last_sale (collection : String) (channelOk : Bool)
    (fetchOutcome : FetchOutcome) (notifyOk : RawRecord → Bool) : CommandResult :=
  if !(COLLECTIONS.contains collection) then
    ⟨[.reply "Invalid collection. Use dopedoges or minidoges."], none⟩
  else if !channelOk then
    ⟨[.reply "Error: Channel not found or bot lacks permission."], none⟩
  else
    if (fetch_sales fetchOutcome).isEmpty then
      ⟨[.apiFetch collection, .reply "No sales data available to post."], none⟩
    else
      match sortSalesDesc (fetch_sales fetchOutcome) with
      | .error _ => ⟨[.apiFetch collection], none⟩
      | .ok sorted =>
        match sorted with
        | [] => ⟨[.apiFetch collection], none⟩
        | last_sale :: _ =>
          match parseSaleTimestamp last_sale with
          | .error _ => ⟨[.apiFetch collection], none⟩
          | .ok _ =>
            if notifyOk last_sale then
              ⟨[.apiFetch collection, .discordPost collection last_sale,
                .reply "Last sale posted to the sales channel."], some last_sale⟩
            else ⟨[.apiFetch collection], none⟩

/-- The hard-coded record of the `!test_sale` command (bot.py lines
217-226); `1741726800` is `2025-03-11T21:00:00.000Z`. -/
def test_sale_record (collection : String) : RawRecord :=
  { inscriptionId := some ("test_image_id_" ++ collection)
    status := some "bought"
    price := if collection == "dopedoges" then 70000000000 else 50000000000
    sellerAddress := some "TESTSELLER123456789"
    buyerAddress := some "TESTBUYER456789123"
    itemId := some (if collection == "dopedoges" then "999" else "888")
    date := .valid 1741726800
    inscriptionNumber := some (if collection == "dopedoges" then 12345 else 54321) }

/-- The `!test_sale` command (bot.py lines 206-231): validate the
collection, resolve the channel, and post the hard-coded test record. -/
def test_sale (collection : String) (channelOk : Bool)
    (notifyOk : RawRecord → Bool) : CommandResult :=
  if !(COLLECTIONS.contains collection) then
    ⟨[.reply "Invalid collection. Use dopedoges or minidoges."], none⟩
  else if !channelOk then
    ⟨[.reply "Error: Channel not found or bot lacks permission."], none⟩
  else if notifyOk (test_sale_record collection) then
    ⟨[.discordPost collection (test_sale_record collection),
      .reply "Test sale posted to the sales channel."],
     some (test_sale_record collection)⟩
  else ⟨[], none⟩

/-! ### Helper lemmas about the delivery loop and one pass -/

theorem saleTs_of_parse {r : RawRecord} {t : Timestamp}
    (h : parseSaleTimestamp r = .ok t) : saleTs r = t := by
  unfold parseSaleTimestamp at h
  unfold saleTs
  cases hd : r.date <;> rw [hd] at h <;> simp_all

theorem if_lt_eq_max (a b : Int) : (if a < b then b else a) = max a b := by
  rcases lt_or_le a b with h | h
  · simp [h, max_eq_right h.le]
  · simp [not_lt.2 h, max_eq_left h]

/-- `new_last_sale_timestamp` at the end of the loop is the max of its
starting value and the timestamps of the records actually posted. -/
theorem deliverLoop_newLast (notify : RawRecord → Bool) (now last : Timestamp)
    (l : List RawRecord) : ∀ nl : Timestamp,
    (deliverLoop notify now last l nl).2.1 =
      List.foldl (fun a r => max a (saleTs r)) nl (deliverLoop notify now last l nl).1 := by
  induction l with
  | nil => intro nl; rfl
  | cons r rest ih =>
    intro nl
    simp only [deliverLoop]
    split
    · split
      · rfl
      · rename_i t heq
        split
        · exact ih nl
        · split
          · exact ih nl
          · split
            · simp only [List.foldl_cons]
              rw [if_lt_eq_max, ← saleTs_of_parse heq]
              exact ih (max nl (saleTs r))
            · rfl
    · exact ih nl

/-- Every record posted by the loop comes from the batch, passed the status
and buyer guard, has a parseable timestamp within the staleness window and
strictly above the watermark, and its `channel.send` succeeded. -/
theorem deliverLoop_mem (notify : RawRecord → Bool) (now last : Timestamp)
    (l : List RawRecord) : ∀ (nl : Timestamp) (r : RawRecord),
    r ∈ (deliverLoop notify now last l nl).1 →
      r ∈ l ∧ isSaleRecord r = true ∧ parseSaleTimestamp r = .ok (saleTs r) ∧
        now - saleTs r ≤ stalenessWindow ∧ last < saleTs r ∧ notify r = true := by
  induction l with
  | nil => intro nl r h; exact absurd h (List.not_mem_nil r)
  | cons x rest ih =>
    intro nl r h
    simp only [deliverLoop] at h
    split at h
    · rename_i hs
      split at h
      · simp at h
      · rename_i t heq
        split at h
        · rename_i h1
          have h2 := ih nl r h
          exact ⟨List.mem_cons_of_mem x h2.1, h2.2⟩
        · rename_i h1
          split at h
          · rename_i h2
            have h3 := ih nl r h
            exact ⟨List.mem_cons_of_mem x h3.1, h3.2⟩
          · rename_i h2
            split at h
            · rename_i h3
              rcases List.mem_cons.1 h with rfl | hmem
              · have hts : saleTs r = t := saleTs_of_parse heq
                refine ⟨List.mem_cons_self r rest, hs, ?_, ?_, ?_, h3⟩
                · rw [heq, hts]
                · rw [hts]; exact le_of_not_lt h1
                · rw [hts]; exact lt_of_not_le h2
              · have h4 := ih _ r hmem
                exact ⟨List.mem_cons_of_mem x h4.1, h4.2⟩
            · simp at h
    · rename_i hs
      have h2 := ih nl r h
      exact ⟨List.mem_cons_of_mem x h2.1, h2.2⟩

/-- A batch with no record passing the status/buyer guard leads to no posts,
an unchanged `new_last_sale_timestamp`, and no exception from the loop. -/
theorem deliverLoop_noSales (notify : RawRecord → Bool) (now last : Timestamp)
    (l : List RawRecord) (h : ∀ r ∈ l, isSaleRecord r = false) :
    ∀ nl : Timestamp, deliverLoop notify now last l nl = ([], nl, false) := by
  induction l with
  | nil => intro nl; rfl
  | cons x rest ih =>
    intro nl
    have hx : isSaleRecord x = false := h x (List.mem_cons_self x rest)
    simp only [deliverLoop, hx, Bool.false_eq_true, if_false]
    exact ih (fun r hr => h r (List.mem_cons_of_mem x hr)) nl

theorem le_foldl_saleMax (l : List RawRecord) : ∀ a : Timestamp,
    a ≤ List.foldl (fun x r => max x (saleTs r)) a l := by
  induction l with
  | nil => intro a; simp
  | cons r rest ih =>
    intro a
    simpa using le_trans (le_max_left a (saleTs r)) (ih (max a (saleTs r)))

theorem foldl_saleMax_attained (l : List RawRecord) : ∀ a : Timestamp,
    List.foldl (fun x r => max x (saleTs r)) a l = a ∨
      ∃ r ∈ l, List.foldl (fun x r => max x (saleTs r)) a l = saleTs r := by
  induction l with
  | nil => intro a; left; rfl
  | cons r rest ih =>
    intro a
    simp only [List.foldl_cons]
    rcases ih (max a (saleTs r)) with h | ⟨r', hr', h⟩
    · rcases le_or_lt (saleTs r) a with hle | hlt
      · left; rw [h, max_eq_left hle]
      · right; exact ⟨r, List.mem_cons_self r rest, by rw [h, max_eq_right hlt.le]⟩
    · right; exact ⟨r', List.mem_cons_of_mem r hr', h⟩

theorem sortSalesAsc_ok {l sales : List RawRecord}
    (h : sortSalesAsc l = .ok sales) :
    sales = List.insertionSort tsAscRel l ∧ allParseable l = true := by
  unfold sortSalesAsc at h
  split at h
  · injection h with h2
    exact ⟨h2.symm, by assumption⟩
  · cases h

theorem sortSalesDesc_ok {l sales : List RawRecord}
    (h : sortSalesDesc l = .ok sales) :
    sales = List.insertionSort tsDescRel l ∧ allParseable l = true := by
  unfold sortSalesDesc at h
  split at h
  · injection h with h2
    exact ⟨h2.symm, by assumption⟩
  · cases h

/-- Case analysis of one pass: the channel is missing, the sort raises, or
the loop ran and the pass ends in one of its three final shapes. -/
theorem check_sales_one_eq (last : Timestamp) (inp : CycleInput) :
    (inp.channelOk = false ∧ check_sales_one last inp = ⟨[], false, none, last⟩) ∨
    (inp.channelOk = true ∧ sortSalesAsc inp.fetched = .error () ∧
      check_sales_one last inp = ⟨[], true, none, last⟩) ∨
    (∃ sales, inp.channelOk = true ∧ sortSalesAsc inp.fetched = .ok sales ∧
      (((deliverLoop inp.notifyOk inp.now last sales last).2.2 = true ∧
        check_sales_one last inp =
          ⟨(deliverLoop inp.notifyOk inp.now last sales last).1, true, none, last⟩) ∨
       ((deliverLoop inp.notifyOk inp.now last sales last).2.2 = false ∧
        (deliverLoop inp.notifyOk inp.now last sales last).2.1 ≠ last ∧
        check_sales_one last inp =
          ⟨(deliverLoop inp.notifyOk inp.now last sales last).1, false,
           some (deliverLoop inp.notifyOk inp.now last sales last).2.1,
           if inp.saveOk then (deliverLoop inp.notifyOk inp.now last sales last).2.1
           else last⟩) ∨
       ((deliverLoop inp.notifyOk inp.now last sales last).2.2 = false ∧
        (deliverLoop inp.notifyOk inp.now last sales last).2.1 = last ∧
        check_sales_one last inp =
          ⟨(deliverLoop inp.notifyOk inp.now last sales last).1, false,
           none, last⟩))) := by
  by_cases hch : inp.channelOk = true
  · cases hsort : sortSalesAsc inp.fetched with
    | error e =>
      cases e
      refine Or.inr (Or.inl ⟨hch, rfl, ?_⟩)
      unfold check_sales_one
      rw [if_pos hch, hsort]
    | ok sales =>
      refine Or.inr (Or.inr ⟨sales, hch, rfl, ?_⟩)
      by_cases hab : (deliverLoop inp.notifyOk inp.now last sales last).2.2 = true
      · refine Or.inl ⟨hab, ?_⟩
        unfold check_sales_one
        rw [if_pos hch, hsort]
        simp [hab]
      · have hab2 : (deliverLoop inp.notifyOk inp.now last sales last).2.2 = false := by
          simpa using hab
        by_cases hne : (deliverLoop inp.notifyOk inp.now last sales last).2.1 = last
        · refine Or.inr (Or.inr ⟨hab2, hne, ?_⟩)
          unfold check_sales_one
          rw [if_pos hch, hsort]
          simp [hab2, hne]
        · refine Or.inr (Or.inl ⟨hab2, hne, ?_⟩)
          unfold check_sales_one
          rw [if_pos hch, hsort]
          simp [hab2, hne]
  · refine Or.inl ⟨by simpa using hch, ?_⟩
    unfold check_sales_one
    rw [if_neg hch]

/-- Every record a pass delivers comes from the fetched batch, passed the
status/buyer guard, is within the staleness window, lies strictly above the
loaded watermark, and its `channel.send` succeeded. -/
theorem check_sales_one_delivered (last : Timestamp) (inp : CycleInput)
    (r : RawRecord) (hr : r ∈ (check_sales_one last inp).delivered) :
    r ∈ inp.fetched ∧ isSaleRecord r = true ∧
      parseSaleTimestamp r = .ok (saleTs r) ∧
      inp.now - saleTs r ≤ stalenessWindow ∧ last < saleTs r ∧
      inp.notifyOk r = true := by
  rcases check_sales_one_eq last inp with ⟨hch, heq⟩ | ⟨hch, hsort, heq⟩ |
    ⟨sales, hch, hsort, hcase⟩
  · rw [heq] at hr; simp at hr
  · rw [heq] at hr; simp at hr
  · have hmem : r ∈ (deliverLoop inp.notifyOk inp.now last sales last).1 := by
      rcases hcase with ⟨hab, heq⟩ | ⟨hab, hne, heq⟩ | ⟨hab, hne, heq⟩ <;>
        rw [heq] at hr <;> exact hr
    have h2 := deliverLoop_mem inp.notifyOk inp.now last sales last r hmem
    have hsl := (sortSalesAsc_ok hsort).1
    rw [hsl, List.mem_insertionSort] at h2
    exact h2

/-- If a pass called `save_last_sale_timestamp`, the value it saved is the
max of the loaded watermark and the delivered timestamps, is strictly above
the loaded watermark, and is the timestamp of some delivered record. -/
theorem check_sales_one_saved (last : Timestamp) (inp : CycleInput)
    (v : Timestamp) (h : (check_sales_one last inp).saved = some v) :
    v = List.foldl (fun a r => max a (saleTs r)) last
          (check_sales_one last inp).delivered ∧
      last < v ∧ ∃ r ∈ (check_sales_one last inp).delivered, saleTs r = v := by
  rcases check_sales_one_eq last inp with ⟨hch, heq⟩ | ⟨hch, hsort, heq⟩ |
    ⟨sales, hch, hsort, hcase⟩
  · rw [heq] at h; simp at h
  · rw [heq] at h; simp at h
  · rcases hcase with ⟨hab, heq⟩ | ⟨hab, hne, heq⟩ | ⟨hab, hne, heq⟩
    · rw [heq] at h; simp at h
    · rw [heq] at h ⊢
      simp only [Option.some.injEq] at h
      subst h
      have hfold := deliverLoop_newLast inp.notifyOk inp.now last sales last
      refine ⟨hfold, ?_, ?_⟩
      · have hle := le_foldl_saleMax
          (deliverLoop inp.notifyOk inp.now last sales last).1 last
        rw [← hfold] at hle
        exact lt_of_le_of_ne hle (Ne.symm hne)
      · rcases foldl_saleMax_attained
          (deliverLoop inp.notifyOk inp.now last sales last).1 last with
          hcase2 | hcase2
        · rw [← hfold] at hcase2; exact absurd hcase2 hne
        · rw [← hfold] at hcase2
          obtain ⟨r, hrmem, hr⟩ := hcase2
          exact ⟨r, hrmem, hr.symm⟩
    · rw [heq] at h; simp at h

/-- The persisted watermark never decreases across one pass. -/
theorem check_sales_one_mono (last : Timestamp) (inp : CycleInput) :
    last ≤ (check_sales_one last inp).watermarkAfter := by
  rcases check_sales_one_eq last inp with ⟨hch, heq⟩ | ⟨hch, hsort, heq⟩ |
    ⟨sales, hch, hsort, hcase⟩
  · rw [heq]
  · rw [heq]
  · rcases hcase with ⟨hab, heq⟩ | ⟨hab, hne, heq⟩ | ⟨hab, hne, heq⟩
    · rw [heq]
    · rw [heq]
      have hfold := deliverLoop_newLast inp.notifyOk inp.now last sales last
      have hle := le_foldl_saleMax
        (deliverLoop inp.notifyOk inp.now last sales last).1 last
      rw [← hfold] at hle
      by_cases hsave : inp.saveOk = true
      · simpa [hsave] using hle
      · simp [hsave]
    · rw [heq]

/-- An aborted pass saves nothing and leaves the watermark unchanged. -/
theorem check_sales_one_aborted (last : Timestamp) (inp : CycleInput)
    (h : (check_sales_one last inp).aborted = true) :
    (check_sales_one last inp).saved = none ∧
      (check_sales_one last inp).watermarkAfter = last := by
  rcases check_sales_one_eq last inp with ⟨hch, heq⟩ | ⟨hch, hsort, heq⟩ |
    ⟨sales, hch, hsort, hcase⟩
  · rw [heq]; exact ⟨rfl, rfl⟩
  · rw [heq]; exact ⟨rfl, rfl⟩
  · rcases hcase with ⟨hab, heq⟩ | ⟨hab, hne, heq⟩ | ⟨hab, hne, heq⟩
    · rw [heq]; exact ⟨rfl, rfl⟩
    · rw [heq] at h; simp at h
    · rw [heq] at h; simp at h

/-- A batch in which no record passes the status/buyer guard yields no
deliveries, no save, and an unchanged watermark. -/
theorem check_sales_one_noSales (last : Timestamp) (inp : CycleInput)
    (h : ∀ r ∈ inp.fetched, isSaleRecord r = false) :
    (check_sales_one last inp).delivered = [] ∧
      (check_sales_one last inp).saved = none ∧
      (check_sales_one last inp).watermarkAfter = last := by
  rcases check_sales_one_eq last inp with ⟨hch, heq⟩ | ⟨hch, hsort, heq⟩ |
    ⟨sales, hch, hsort, hcase⟩
  · rw [heq]; exact ⟨rfl, rfl, rfl⟩
  · rw [heq]; exact ⟨rfl, rfl, rfl⟩
  · have hall : ∀ r ∈ sales, isSaleRecord r = false := by
      intro r hr
      have hsl := (sortSalesAsc_ok hsort).1
      rw [hsl, List.mem_insertionSort] at hr
      exact h r hr
    have hnos := deliverLoop_noSales inp.notifyOk inp.now last sales hall last
    rcases hcase with ⟨hab, heq⟩ | ⟨hab, hne, heq⟩ | ⟨hab, hne, heq⟩
    · rw [hnos] at hab; simp at hab
    · rw [hnos] at hne; simp at hne
    · rw [heq, hnos]; exact ⟨rfl, rfl, rfl⟩

/-! ### Claim theorems -/

/-- C1 (Monotonic watermark): over any sequence of poll cycles on one
collection in which each cycle loads the watermark the previous cycle left
persisted, the watermarks after successive cycles form a non-decreasing
chain; within one cycle the watermark never decreases and any value passed
to `save_last_sale_timestamp` equals the max of the loaded watermark and
the timestamps of the posted records. -/
theorem watermark_monotone (w0 : Timestamp) (inputs : List CycleInput) :
    List.Chain' (fun a b => a ≤ b) (w0 :: runCycles w0 inputs) ∧
      ∀ (w : Timestamp) (inp : CycleInput),
        w ≤ (check_sales_one w inp).watermarkAfter ∧
          ∀ v, (check_sales_one w inp).saved = some v →
            v = List.foldl (fun a r => max a (saleTs r)) w
                  (check_sales_one w inp).delivered := by
  constructor
  · induction inputs generalizing w0 with
    | nil => simp [runCycles]
    | cons inp rest ih =>
      rw [runCycles, List.chain'_cons]
      exact ⟨check_sales_one_mono w0 inp, ih _⟩
  · intro w inp
    exact ⟨check_sales_one_mono w inp,
      fun v hv => (check_sales_one_saved w inp v hv).1⟩

def c1rec : RawRecord :=
  { status := some "bought", buyerAddress := some "DOneBuyerAddr",
    date := .valid 500 }

def c1inp : CycleInput := ⟨true, [c1rec], 1000, fun _ => true, true⟩

theorem watermark_monotone_witness :
    (500 : Timestamp) = List.foldl (fun a r => max a (saleTs r)) 0
      (check_sales_one 0 c1inp).delivered :=
  ((watermark_monotone 0 [c1inp]).2 0 c1inp).2 500 (by decide)

/-- C2 (No redelivery): a fetched record whose parsed timestamp is at or
below the loaded watermark is never among the delivered records, and any
value saved as the new watermark is strictly above the loaded watermark and
is the timestamp of some record that was delivered (hence not of this
record). -/
theorem no_redelivery_below_watermark (last : Timestamp) (inp : CycleInput)
    (r : RawRecord) (t : Timestamp) (hr : r ∈ inp.fetched)
    (hp : parseSaleTimestamp r = .ok t) (hle : t ≤ last) :
    r ∉ (check_sales_one last inp).delivered ∧
      ∀ v, (check_sales_one last inp).saved = some v →
        last < v ∧ ∃ r2 ∈ (check_sales_one last inp).delivered, saleTs r2 = v := by
  constructor
  · intro hmem
    have h := check_sales_one_delivered last inp r hmem
    rw [saleTs_of_parse hp] at h
    exact absurd h.2.2.2.2.1 (not_lt.2 hle)
  · intro v hv
    have h := check_sales_one_saved last inp v hv
    exact ⟨h.2.1, h.2.2⟩

def c2rec : RawRecord :=
  { status := some "bought", buyerAddress := some "DTwoBuyerAddr",
    date := .valid 50 }

def c2inp : CycleInput := ⟨true, [c2rec], 1000, fun _ => true, true⟩

theorem no_redelivery_below_watermark_witness :
    c2rec ∉ (check_sales_one 100 c2inp).delivered :=
  (no_redelivery_below_watermark 100 c2inp c2rec 50 (by decide) rfl
    (by decide)).1

/-- C3 (Staleness bound): a fetched record whose parsed timestamp is older
than `now` minus the 24-hour staleness window is never among the delivered
records, for every watermark value. -/
theorem staleness_bound (last : Timestamp) (inp : CycleInput)
    (r : RawRecord) (t : Timestamp) (hr : r ∈ inp.fetched)
    (hp : parseSaleTimestamp r = .ok t)
    (hstale : stalenessWindow < inp.now - t) :
    r ∉ (check_sales_one last inp).delivered := by
  intro hmem
  have h := check_sales_one_delivered last inp r hmem
  rw [saleTs_of_parse hp] at h
  exact absurd h.2.2.2.1 (not_le.2 hstale)

def c3rec : RawRecord :=
  { status := some "bought", buyerAddress := some "DThreeBuyerAddr",
    date := .valid 92000 }

def c3inp : CycleInput := ⟨true, [c3rec], 200000, fun _ => true, true⟩

theorem staleness_bound_witness :
    c3rec ∉ (check_sales_one datetimeMin c3inp).delivered :=
  staleness_bound datetimeMin c3inp c3rec 92000 (by decide) rfl
    (by decide)

/-- C6 (Fetch-failure no-op): an HTTP non-200 or a transport error makes
`fetch_sales` return the empty list, and a pass over an empty batch delivers
nothing, issues no save, and leaves the watermark exactly as loaded. -/
theorem fetch_failure_noop (last now : Timestamp) (channelOk saveOk : Bool)
    (notify : RawRecord → Bool) (fo : FetchOutcome)
    (hfail : fo = .httpError ∨ fo = .transportError) :
    fetch_sales fo = [] ∧
      (check_sales_one last ⟨channelOk, fetch_sales fo, now, notify, saveOk⟩).watermarkAfter
        = last ∧
      (check_sales_one last ⟨channelOk, fetch_sales fo, now, notify, saveOk⟩).saved
        = none ∧
      (check_sales_one last ⟨channelOk, fetch_sales fo, now, notify, saveOk⟩).delivered
        = [] := by
  have hempty : fetch_sales fo = [] := by rcases hfail with rfl | rfl <;> rfl
  have h := check_sales_one_noSales last
    ⟨channelOk, fetch_sales fo, now, notify, saveOk⟩
    (by intro r hrm; rw [show (⟨channelOk, fetch_sales fo, now, notify, saveOk⟩ :
          CycleInput).fetched = fetch_sales fo from rfl, hempty] at hrm
        exact absurd hrm (List.not_mem_nil r))
  exact ⟨hempty, h.2.2, h.2.1, h.1⟩

theorem fetch_failure_noop_witness :
    fetch_sales .httpError = [] ∧
      (check_sales_one 7 ⟨true, fetch_sales .httpError, 1000, fun _ => true, true⟩).watermarkAfter
        = 7 ∧
      (check_sales_one 7 ⟨true, fetch_sales .httpError, 1000, fun _ => true, true⟩).saved
        = none ∧
      (check_sales_one 7 ⟨true, fetch_sales .httpError, 1000, fun _ => true, true⟩).delivered
        = [] :=
  fetch_failure_noop 7 1000 true true (fun _ => true) .httpError (Or.inl rfl)

/-- C8 (Non-sales filtered): a batch in which every record fails the
status/buyer guard (status not "bought", or buyer address absent or empty)
produces no deliveries, no save call, and an unchanged watermark. -/
theorem non_sale_records_noop (last : Timestamp) (inp : CycleInput)
    (h : ∀ r ∈ inp.fetched, isSaleRecord r = false) :
    (check_sales_one last inp).delivered = [] ∧
      (check_sales_one last inp).saved = none ∧
      (check_sales_one last inp).watermarkAfter = last :=
  check_sales_one_noSales last inp h

def c8rec : RawRecord :=
  { status := some "listed", buyerAddress := some "DEightBuyerAddr",
    date := .valid 500, price := 12345 }

def c8inp : CycleInput := ⟨true, [c8rec], 1000, fun _ => true, true⟩

theorem non_sale_records_noop_witness :
    (check_sales_one 0 c8inp).delivered = [] ∧
      (check_sales_one 0 c8inp).saved = none ∧
      (check_sales_one 0 c8inp).watermarkAfter = 0 :=
  non_sale_records_noop 0 c8inp (by decide)

def c4r1 : RawRecord :=
  { status := some "bought", buyerAddress := some "DFourBuyerOne",
    itemId := some "1", date := .valid 50000 }

def c4r2 : RawRecord :=
  { status := some "bought", buyerAddress := some "DFourBuyerTwo",
    itemId := some "2", date := .valid 60000 }

def c4inp : CycleInput :=
  ⟨true, [c4r1, c4r2], 90000, fun r => !(r.itemId == some "1"), true⟩

/-- C4 counterexample: with watermark 0 and two eligible sale records, where
delivery of the earlier record fails and delivery of the later record would
succeed, the pass delivers nothing at all: the later, newer record is not
delivered, contradicting the claim that a failed delivery is logged and the
cycle continues with the next record of the batch. -/
theorem delivery_failure_blocks_rest :
    isSaleRecord c4r2 = true ∧ c4inp.notifyOk c4r2 = true ∧
      (0 : Timestamp) < saleTs c4r2 ∧
      c4inp.now - saleTs c4r2 ≤ stalenessWindow ∧
      c4r2 ∈ c4inp.fetched ∧
      c4r2 ∉ (check_sales_one 0 c4inp).delivered ∧
      (check_sales_one 0 c4inp).delivered = [] ∧
      (check_sales_one 0 c4inp).aborted = true := by decide

/-- C4 amended: a failed `channel.send` raises out of the delivery loop and
aborts the pass: no save is issued and the watermark stays at its pre-cycle
value (so the failed record and everything after it is re-selected next
cycle); every record that does appear in the delivered list had a successful
send. -/
theorem delivery_failure_aborts_cycle (last : Timestamp) (inp : CycleInput) :
    ((check_sales_one last inp).aborted = true →
      (check_sales_one last inp).saved = none ∧
        (check_sales_one last inp).watermarkAfter = last) ∧
    ∀ r ∈ (check_sales_one last inp).delivered, inp.notifyOk r = true := by
  refine ⟨check_sales_one_aborted last inp, ?_⟩
  intro r hr
  exact (check_sales_one_delivered last inp r hr).2.2.2.2.2

theorem delivery_failure_aborts_cycle_witness :
    (check_sales_one 0 c4inp).saved = none ∧
      (check_sales_one 0 c4inp).watermarkAfter = 0 :=
  (delivery_failure_aborts_cycle 0 c4inp).1 (by decide)

def c5bad : RawRecord :=
  { status := some "bought", buyerAddress := some "DFiveBuyerAddr",
    date := .unparseable }

def c5inp : CycleInput := ⟨true, [c5bad], 100000, fun _ => true, true⟩

/-- C5 counterexample: a batch containing a record whose date string does
not parse makes the pass abort (the exception from `fromisoformat` inside
the sort escapes `check_sales`), contradicting the claim that an
unparseable timestamp is treated as the epoch and filtering proceeds
rather than aborting the cycle. -/
theorem unparseable_date_aborts :
    (check_sales_one 0 c5inp).aborted = true ∧
      (check_sales_one 0 c5inp).delivered = [] := by decide

/-- C5 amended: a record with a missing date field is treated as occurring
at the epoch and (whenever the clock is more than the staleness window past
the epoch) is dropped rather than delivered; a record with an unparseable
date string instead raises during sorting and aborts the whole pass, with
nothing delivered and nothing saved. -/
theorem timestamp_default_policy (last : Timestamp) (inp : CycleInput) :
    (∀ r ∈ inp.fetched, r.date = .missing →
      parseSaleTimestamp r = .ok epoch ∧
        (stalenessWindow < inp.now → r ∉ (check_sales_one last inp).delivered)) ∧
    (inp.channelOk = true → (∃ r ∈ inp.fetched, r.date = .unparseable) →
      (check_sales_one last inp).aborted = true ∧
        (check_sales_one last inp).delivered = [] ∧
        (check_sales_one last inp).saved = none) := by
  constructor
  · intro r hrm hmiss
    have hp : parseSaleTimestamp r = .ok epoch := by
      unfold parseSaleTimestamp
      rw [hmiss]
    refine ⟨hp, ?_⟩
    intro hnow hmem
    have h := check_sales_one_delivered last inp r hmem
    have hts : saleTs r = epoch := saleTs_of_parse hp
    rw [hts] at h
    have h2 : inp.now - epoch ≤ stalenessWindow := h.2.2.2.1
    have h3 : inp.now ≤ stalenessWindow := by simpa [epoch] using h2
    exact absurd h3 (not_le.2 hnow)
  · intro hch hex
    rcases check_sales_one_eq last inp with ⟨hch2, heq⟩ | ⟨hch2, hsort, heq⟩ |
      ⟨sales, hch2, hsort, hcase⟩
    · rw [hch2] at hch; cases hch
    · rw [heq]; exact ⟨rfl, rfl, rfl⟩
    · exfalso
      have hap := (sortSalesAsc_ok hsort).2
      rw [allParseable, List.all_eq_true] at hap
      obtain ⟨r, hrm, hrd⟩ := hex
      have hbad := hap r hrm
      rw [hrd] at hbad
      simp at hbad

def c5miss : RawRecord :=
  { status := some "bought", buyerAddress := some "DFiveBuyerMiss",
    date := .missing }

def c5inp2 : CycleInput := ⟨true, [c5miss], 100000, fun _ => true, true⟩

theorem timestamp_default_policy_witness :
    parseSaleTimestamp c5miss = .ok epoch ∧
      c5miss ∉ (check_sales_one 0 c5inp2).delivered := by
  have h := (timestamp_default_policy 0 c5inp2).1 c5miss (by decide) (by decide)
  exact ⟨h.1, h.2 (by decide)⟩

def c7record (now : Timestamp) : RawRecord :=
  { status := some "bought", price := 7000000000000,
    itemId := some "42", inscriptionId := some "insc42",
    inscriptionNumber := some 7,
    buyerAddress := some "DSevenBuyerAddr",
    sellerAddress := some "DSevenSellerAddr",
    date := .valid (now - 3600) }

def c7input (now : Timestamp) : CycleInput :=
  ⟨true, [c7record now], now, fun _ => true, true⟩

/-- C7 (Single-sale scenario): with the watermark at the epoch and a feed
batch holding one record with status "bought", a non-empty buyer address,
timestamp one hour before now, and raw price 7000000000000, the pass
delivers exactly that record, the embed shows the price as 70000.00 Doge
(raw price divided by 10^8, two decimals), and the saved and persisted
watermark both equal the record's timestamp. -/
theorem single_sale_scenario (now : Int) (h : 3600 < now) :
    (check_sales_one epoch (c7input now)).delivered = [c7record now] ∧
      (check_sales_one epoch (c7input now)).saved = some (now - 3600) ∧
      (check_sales_one epoch (c7input now)).watermarkAfter = now - 3600 ∧
      (saleEvent (c7record now)).soldFor = "70000.00 Doge" ∧
      (saleEvent (c7record now)).timestamp = now - 3600 := by
  have hs : isSaleRecord (c7record now) = true := rfl
  have hp : parseSaleTimestamp (c7record now) = Except.ok (now - 3600) := rfl
  have hst : ¬ stalenessWindow < (3600 : Int) := by decide
  have hst2 : (3600 : Int) ≤ stalenessWindow := by decide
  have hwm : ¬ (now - 3600 ≤ (0 : Int)) := by omega
  have hnl : (0 : Int) < now - 3600 := by omega
  have hloop : deliverLoop (fun _ => true) now 0 [c7record now] 0
      = ([c7record now], now - 3600, false) := by
    simp [deliverLoop, hs, hp, hst, hst2, hwm, hnl]
  have hsort : sortSalesAsc [c7record now] = .ok [c7record now] := rfl
  have hne2 : ¬ (now - 3600 = (0 : Int)) := by omega
  have hmain : check_sales_one epoch (c7input now)
      = ⟨[c7record now], false, some (now - 3600), now - 3600⟩ := by
    unfold check_sales_one c7input
    simp [hsort, epoch, hloop, hne2]
  rw [hmain]
  refine ⟨rfl, rfl, rfl, ?_, rfl⟩
  have hq : price_doge 7000000000000 = (70000 : ℚ) := by
    unfold price_doge; norm_num
  have hprice : format2f (price_doge 7000000000000) = "70000.00" := by
    rw [hq]; rfl
  show format2f (price_doge 7000000000000) ++ " Doge" = "70000.00 Doge"
  rw [hprice]; rfl

theorem single_sale_scenario_witness :
    (check_sales_one epoch (c7input 100000)).delivered = [c7record 100000] ∧
      (check_sales_one epoch (c7input 100000)).saved = some (100000 - 3600) ∧
      (check_sales_one epoch (c7input 100000)).watermarkAfter = 100000 - 3600 ∧
      (saleEvent (c7record 100000)).soldFor = "70000.00 Doge" ∧
      (saleEvent (c7record 100000)).timestamp = 100000 - 3600 :=
  single_sale_scenario 100000 (by decide)

/-- C9 (Administrative commands leave the watermark alone): every external
call made by `post_last_sale` and by `test_sale` — under every collection
argument, channel-resolution outcome, fetch outcome and delivery outcome —
is a fetch, a Discord post, or a textual reply; neither command ever
performs a watermark-store read (`load_last_sale_timestamp`) or write
(`save_last_sale_timestamp`), so the persisted watermark of every
collection is unread and unchanged. -/
theorem admin_commands_touch_no_watermark (collection : String)
    (channelOk : Bool) (fo : FetchOutcome) (notifyOk : RawRecord → Bool) :
    (((post_last_sale collection channelOk fo notifyOk).effects.all
        fun e => !(touchesWatermark e)) = true) ∧
    (((test_sale collection channelOk notifyOk).effects.all
        fun e => !(touchesWatermark e)) = true) := by
  constructor
  · unfold post_last_sale
    split
    · simp [touchesWatermark]
    · split
      · simp [touchesWatermark]
      · split
        · simp [touchesWatermark]
        · split
          · simp [touchesWatermark]
          · split
            · simp [touchesWatermark]
            · split
              · simp [touchesWatermark]
              · split
                · simp [touchesWatermark]
                · simp [touchesWatermark]
  · unfold test_sale
    split
    · simp [touchesWatermark]
    · split
      · simp [touchesWatermark]
      · split
        · simp [touchesWatermark]
        · simp [touchesWatermark]

theorem parse_of_allParseable {l : List RawRecord}
    (hap : allParseable l = true) {r : RawRecord} (hr : r ∈ l) :
    parseSaleTimestamp r = .ok (saleTs r) := by
  rw [allParseable, List.all_eq_true] at hap
  have hb := hap r hr
  unfold parseSaleTimestamp saleTs
  cases hd : r.date with
  | missing => rfl
  | unparseable => rw [hd] at hb; simp at hb
  | valid t => rfl

/-- C10 (post_last_sale posts the newest record unfiltered): for a valid
collection, a resolvable channel, a non-empty batch whose dates all parse,
and a succeeding `channel.send`, the `!post_last_sale` command posts a
record of the batch whose timestamp is maximal — with no hypothesis about
status, buyer address, or staleness, since the command applies none of the
sale filters. -/
theorem post_last_sale_posts_max (collection : String) (fo : FetchOutcome)
    (notifyOk : RawRecord → Bool)
    (hc : collection ∈ COLLECTIONS)
    (hne : fetch_sales fo ≠ [])
    (hap : allParseable (fetch_sales fo) = true)
    (hn : ∀ r, notifyOk r = true) :
    ∃ r, (post_last_sale collection true fo notifyOk).posted = some r ∧
      r ∈ fetch_sales fo ∧ ∀ r2 ∈ fetch_sales fo, saleTs r2 ≤ saleTs r := by
  have hcol : collection = "dopedoges" := by simpa [COLLECTIONS] using hc
  subst hcol
  have hsorted := List.sorted_insertionSort tsDescRel (fetch_sales fo)
  cases hs : List.insertionSort tsDescRel (fetch_sales fo) with
  | nil =>
    exfalso
    have hlen := List.length_insertionSort tsDescRel (fetch_sales fo)
    rw [hs] at hlen
    exact hne (List.length_eq_zero.mp hlen.symm)
  | cons hh tt =>
    have hmemh : hh ∈ fetch_sales fo := by
      have hmem0 : hh ∈ List.insertionSort tsDescRel (fetch_sales fo) := by
        rw [hs]; exact List.mem_cons_self hh tt
      rwa [List.mem_insertionSort] at hmem0
    have hparse : parseSaleTimestamp hh = .ok (saleTs hh) :=
      parse_of_allParseable hap hmemh
    have hsd : sortSalesDesc (fetch_sales fo) = .ok (hh :: tt) := by
      unfold sortSalesDesc
      rw [if_pos hap, hs]
    have hie : (fetch_sales fo).isEmpty = false := by
      cases hfe : fetch_sales fo with
      | nil => exact absurd hfe hne
      | cons a as => rfl
    have hpost : (post_last_sale "dopedoges" true fo notifyOk).posted
        = some hh := by
      unfold post_last_sale
      rw [if_neg (by decide), if_neg (by decide), if_neg (by simp [hie]), hsd]
      simp [hparse, hn hh]
    refine ⟨hh, hpost, hmemh, ?_⟩
    intro r2 hr2
    have hr2s : r2 ∈ List.insertionSort tsDescRel (fetch_sales fo) := by
      rw [List.mem_insertionSort]; exact hr2
    rw [hs] at hr2s
    rcases List.mem_cons.1 hr2s with rfl | hr2t
    · exact le_refl _
    · rw [hs] at hsorted
      exact List.rel_of_sorted_cons hsorted r2 hr2t

def c10r1 : RawRecord :=
  { status := some "listed", date := .valid 100, price := 55 }

def c10r2 : RawRecord :=
  { status := some "bought", buyerAddress := some "DTenBuyerAddr",
    date := .valid 50 }

theorem post_last_sale_posts_max_witness :
    ∃ r, (post_last_sale "dopedoges" true (.ok [c10r1, c10r2])
        (fun _ => true)).posted = some r ∧
      r ∈ fetch_sales (.ok [c10r1, c10r2]) ∧
      ∀ r2 ∈ fetch_sales (.ok [c10r1, c10r2]), saleTs r2 ≤ saleTs r :=
  post_last_sale_posts_max "dopedoges" (.ok [c10r1, c10r2]) (fun _ => true)
    (by decide) (by decide) (by decide) (fun r => rfl)

end DopeDoges
